import Mathlib

/-!
Verification of the secure local credential and project-cache store of
`sex-cli` (`src/config.rs`), shallowly embedded in Lean 4.

Modelling conventions:
* bytes are `Nat` values below 256;
* the OS secret store (`keyring::Entry`) is an explicit `SecretStore`
  state with per-operation failure flags, threaded through every
  operation (`Entry::new` itself is modelled as always succeeding);
* the RNG (`rand::thread_rng` / `secretbox::gen_nonce`) is an explicit
  seed state producing deterministic bytes reduced mod 256;
* `sodiumoxide::crypto::secretbox` is modelled as an executable
  authenticated stream cipher with the same interface and lengths
  (MAC tag of 16 bytes followed by the ciphertext); `seal`/`open`
  satisfy the library's functional contract (round trip, tag check);
* Rust panics (`copy_from_slice` on a length mismatch) are an explicit
  `Outcome.panicked` result;
* the config file is a `FsFile` state; JSON is modelled structurally
  (strings and objects are the only shapes this document uses), with
  `serde_json` string printing/parsing treated as faithful.
-/

namespace SexCli

/-! ## Association lists (model of `HashMap` contents) -/

def alookup {κ α : Type} [DecidableEq κ] : List (κ × α) → κ → Option α
  | [], _ => none
  | (k', v) :: rest, k => if k' = k then some v else alookup rest k

/-- `HashMap::insert`: replace an existing binding, otherwise add one. -/
def aset {κ α : Type} [DecidableEq κ] : List (κ × α) → κ → α → List (κ × α)
  | [], k, v => [(k, v)]
  | (k', v') :: rest, k, v =>
    if k' = k then (k, v) :: rest else (k', v') :: aset rest k v

/-! ## Base64 (model of the `base64` crate, `STANDARD` engine) -/

def b64Alphabet : List Char :=
  "ABCDEFGHIJKLMNOPQRSTUVWXYZabcdefghijklmnopqrstuvwxyz0123456789+/".toList

def b64CharOf (n : Nat) : Char := b64Alphabet.getD n 'A'

def b64IndexAux : List Char → Char → Nat → Option Nat
  | [], _, _ => none
  | a :: rest, c, i => if a = c then some i else b64IndexAux rest c (i + 1)

def b64IndexOf (c : Char) : Option Nat := b64IndexAux b64Alphabet c 0

/-- Standard base64 encoding of a byte list, with `=` padding. -/
def b64EncodeChunks : List Nat → List Char
  | [] => []
  | [a] => [b64CharOf (a / 4), b64CharOf (a % 4 * 16), '=', '=']
  | [a, b] =>
    [b64CharOf (a / 4), b64CharOf (a % 4 * 16 + b / 16), b64CharOf (b % 16 * 4), '=']
  | a :: b :: c :: rest =>
    b64CharOf (a / 4) :: b64CharOf (a % 4 * 16 + b / 16) ::
      b64CharOf (b % 16 * 4 + c / 64) :: b64CharOf (c % 64) :: b64EncodeChunks rest

def b64Encode (bs : List Nat) : String := String.mk (b64EncodeChunks bs)

/-- Standard base64 decoding: canonical padding required, trailing
non-zero bits rejected (the `STANDARD` engine's behaviour). -/
def b64DecodeChunks : List Char → Option (List Nat)
  | [] => some []
  | c1 :: c2 :: c3 :: c4 :: rest =>
    match b64IndexOf c1, b64IndexOf c2 with
    | some a, some b =>
      if c3 = '=' then
        if c4 = '=' ∧ rest = [] then
          if b % 16 = 0 then some [a * 4 + b / 16] else none
        else none
      else
        match b64IndexOf c3 with
        | some c =>
          if c4 = '=' then
            if rest = [] then
              if c % 4 = 0 then some [a * 4 + b / 16, b % 16 * 16 + c / 4] else none
            else none
          else
            match b64IndexOf c4 with
            | some d =>
              (b64DecodeChunks rest).map
                (fun tl => (a * 4 + b / 16) :: (b % 16 * 16 + c / 4) :: (c % 4 * 64 + d) :: tl)
            | none => none
        | none => none
    | _, _ => none
  | _ => none

def b64Decode (s : String) : Option (List Nat) := b64DecodeChunks s.toList

/-! ## Model of `sodiumoxide::crypto::secretbox`

An executable authenticated cipher with secretbox's interface: `sbSeal`
returns a 16-byte tag followed by the ciphertext, `sbOpen` checks the
tag and inverts the stream. -/

def NONCEBYTES : Nat := 24
def KEYBYTES : Nat := 32
def MACBYTES : Nat := 16

def ksByte (n k : List Nat) (i : Nat) : Nat :=
  (List.foldl (fun a b => a * 131 + b + 7) (i * 31 + 3) (n ++ k)) % 256

/-- Stream-xor a byte list starting at stream position `i`. -/
def xorStream (n k : List Nat) : Nat → List Nat → List Nat
  | _, [] => []
  | i, b :: bs => (b ^^^ ksByte n k i) :: xorStream n k (i + 1) bs

/-- Authentication tag over nonce, key and ciphertext. -/
def macTag (n k ct : List Nat) : List Nat :=
  (List.range MACBYTES).map
    (fun i => (List.foldl (fun a b => (a * 257 + b + 1) % 65536) i (n ++ k ++ ct)) % 256)

/-- Model of `secretbox::seal` (named `sbSeal`): tag ‖ stream ciphertext. -/
def sbSeal (m n k : List Nat) : List Nat :=
  macTag n k (xorStream n k 0 m) ++ xorStream n k 0 m

/-- Model of `secretbox::open`: verify the tag, then invert the stream. -/
def sbOpen (cb n k : List Nat) : Option (List Nat) :=
  if cb.length < MACBYTES then none
  else
    let tag := cb.take MACBYTES
    let ct := cb.drop MACBYTES
    if tag = macTag n k ct then some (xorStream n k 0 ct) else none

/-! ## Model of the RNG (`rand::thread_rng`, `secretbox::gen_nonce`) -/

structure Rng where
  seed : Nat
deriving DecidableEq

def rngByte (seed i : Nat) : Nat := (seed * 1103515245 + 12345 + i * 2654435761) % 256

/-- `fill_bytes` on a buffer of length `cnt`, advancing the RNG state. -/
def fillBytes (r : Rng) (cnt : Nat) : List Nat × Rng :=
  ((List.range cnt).map (rngByte r.seed), ⟨r.seed + 1⟩)

/-- `secretbox::gen_nonce`: 24 fresh random bytes. -/
def genNonce (r : Rng) : List Nat × Rng := fillBytes r NONCEBYTES

/-! ## Model of the OS secret store (`keyring::Entry`)

An entry is addressed by a (service, account) pair.  `getFails` and
`setFails` model platform failures (store unavailable, access denied)
of the respective operation, which the `keyring` crate reports as
errors distinct from `NoEntry`. -/

abbrev EntryId := String × String

structure SecretStore where
  entries : List (EntryId × String)
  getFails : Bool
  setFails : Bool
deriving DecidableEq

/-- Result of `Entry::get_password`. -/
inductive KrGet where
  | ok (v : String)
  | noEntry
  | platformErr
deriving DecidableEq

def getPassword (st : SecretStore) (id : EntryId) : KrGet :=
  if st.getFails then .platformErr
  else
    match alookup st.entries id with
    | some v => .ok v
    | none => .noEntry

/-- `Entry::set_password`: `none` models a platform error. -/
def setPassword (st : SecretStore) (id : EntryId) (v : String) : Option SecretStore :=
  if st.setFails then none
  else some { st with entries := aset st.entries id v }

/-! ## Errors and outcomes

`CfgError` classifies the `anyhow` errors the store produces, one
constructor per distinct error site of `src/config.rs`; `panicked`
models a Rust panic. -/

inductive CfgError where
  | keyringError
  | decodeError
  | malformed
  | authFailed
  | invalidNonce
  | invalidEncoding
  | parseError
deriving DecidableEq

inductive Outcome (α : Type) where
  | ok (a : α)
  | err (e : CfgError)
  | panicked
deriving DecidableEq

/-! ## `Config::get_project_key` (src/config.rs lines 137-158) -/

def KEYRING_SERVICE : String := "sex-cli"
def KEYRING_USERNAME : String := "project-encryption-key"
def PROJECT_KEY_LENGTH : Nat := 32
def APP_NAME : String := "sex-cli"

def deviceKeyEntry : EntryId := (KEYRING_SERVICE, KEYRING_USERNAME)

/-- Embeds `Config::get_project_key`.  On a successful read the code
copies the decoded bytes into a 32-byte array with `copy_from_slice`,
which panics when the decoded length differs from 32 (there is no
length check in the source); on ANY `get_password` error (the
`Err(_)` arm) it generates a fresh key, stores it and returns it. -/
def getProjectKey (st : SecretStore) (r : Rng) : Outcome (List Nat) × SecretStore × Rng :=
  match getPassword st deviceKeyEntry with
  | .ok keyStr =>
    match b64Decode keyStr with
    | none => (.err .decodeError, st, r)
    | some keyBytes =>
      if keyBytes.length = PROJECT_KEY_LENGTH then (.ok keyBytes, st, r)
      else (.panicked, st, r)
  | .noEntry | .platformErr =>
    let (key, r') := fillBytes r PROJECT_KEY_LENGTH
    let keyStr := b64Encode key
    match setPassword st deviceKeyEntry keyStr with
    | none => (.err .keyringError, st, r')
    | some st' => (.ok key, st', r')

/-! ## UTF-8 validity (model of `String::from_utf8`)

A Rust `String` is modelled as its UTF-8 byte list; `validUtf8` is the
standard well-formedness check (continuation ranges, overlong and
surrogate rejection) that `String::from_utf8` performs. -/

def isCont (b : Nat) : Bool := 128 ≤ b && b ≤ 191

def validUtf8 : List Nat → Bool
  | [] => true
  | b :: rest =>
    if b ≤ 0x7F then validUtf8 rest
    else if 0xC2 ≤ b && b ≤ 0xDF then
      match rest with
      | c :: r => isCont c && validUtf8 r
      | [] => false
    else if b = 0xE0 then
      match rest with
      | c :: d :: r => (0xA0 ≤ c && c ≤ 0xBF) && isCont d && validUtf8 r
      | _ => false
    else if (0xE1 ≤ b && b ≤ 0xEC) || b = 0xEE || b = 0xEF then
      match rest with
      | c :: d :: r => isCont c && isCont d && validUtf8 r
      | _ => false
    else if b = 0xED then
      match rest with
      | c :: d :: r => (0x80 ≤ c && c ≤ 0x9F) && isCont d && validUtf8 r
      | _ => false
    else if b = 0xF0 then
      match rest with
      | c :: d :: e :: r => (0x90 ≤ c && c ≤ 0xBF) && isCont d && isCont e && validUtf8 r
      | _ => false
    else if 0xF1 ≤ b && b ≤ 0xF3 then
      match rest with
      | c :: d :: e :: r => isCont c && isCont d && isCont e && validUtf8 r
      | _ => false
    else if b = 0xF4 then
      match rest with
      | c :: d :: e :: r => (0x80 ≤ c && c ≤ 0x8F) && isCont d && isCont e && validUtf8 r
      | _ => false
    else false

/-! ## Data model (src/config.rs lines 17-38) -/

structure EncryptedProject where
  name : List Nat
  slug : String
deriving DecidableEq

/-- `Organization`: the `keyring` field is `#[serde(skip)]` in the
source, holding the secret-store entry reference when present. -/
structure Organization where
  name : String
  slug : String
  keyring : Option EntryId
  projects : List (String × EncryptedProject)
deriving DecidableEq

structure Config where
  organizations : List (String × Organization)
deriving DecidableEq

/-! ## JSON document model

Only the shapes this document uses: strings and objects.  `serde_json`
printing/parsing of such values is treated as a faithful bijection, so
the file content is modelled at the JSON-tree level. -/

inductive Json where
  | str (s : String)
  | obj (fields : List (String × Json))

def jField (fields : List (String × Json)) (k : String) : Option Json :=
  alookup fields k

def Json.objKeys : Json → List String
  | .obj fs => fs.map Prod.fst
  | .str _ => []

/-- Serde serialization of `EncryptedProject`: the custom
`encrypted_data` module base64-encodes the blob (lines 44-50). -/
def EncryptedProject.toJson (p : EncryptedProject) : Json :=
  .obj [("name", .str (b64Encode p.name)), ("slug", .str p.slug)]

/-- Serde serialization of `Organization`: `keyring` is skipped. -/
def Organization.toJson (o : Organization) : Json :=
  .obj [("name", .str o.name), ("slug", .str o.slug),
    ("projects", .obj (o.projects.map (fun kv => (kv.1, kv.2.toJson))))]

def Config.toJson (c : Config) : Json :=
  .obj [("organizations", .obj (c.organizations.map (fun kv => (kv.1, kv.2.toJson))))]

/-- Serde deserialization of `EncryptedProject` (base64 decode of
`name`, lines 52-60). -/
def EncryptedProject.fromJson : Json → Except CfgError EncryptedProject
  | .obj fs =>
    match jField fs "name", jField fs "slug" with
    | some (.str nb64), some (.str slug) =>
      match b64Decode nb64 with
      | some bytes => .ok { name := bytes, slug := slug }
      | none => .error .parseError
    | _, _ => .error .parseError
  | _ => .error .parseError

def parseProjects : List (String × Json) → Except CfgError (List (String × EncryptedProject))
  | [] => .ok []
  | (k, j) :: rest =>
    match EncryptedProject.fromJson j with
    | .error e => .error e
    | .ok p =>
      match parseProjects rest with
      | .error e => .error e
      | .ok tl => .ok ((k, p) :: tl)

/-- Serde deserialization of `Organization`: `keyring` is
`#[serde(skip)]` so it deserializes to `None`; `projects` is
`#[serde(default)]` so a missing field gives the empty map. -/
def Organization.fromJson : Json → Except CfgError Organization
  | .obj fs =>
    match jField fs "name", jField fs "slug" with
    | some (.str name), some (.str slug) =>
      match jField fs "projects" with
      | none => .ok { name := name, slug := slug, keyring := none, projects := [] }
      | some (.obj pfs) =>
        match parseProjects pfs with
        | .error e => .error e
        | .ok ps => .ok { name := name, slug := slug, keyring := none, projects := ps }
      | some _ => .error .parseError
    | _, _ => .error .parseError
  | _ => .error .parseError

def parseOrgs : List (String × Json) → Except CfgError (List (String × Organization))
  | [] => .ok []
  | (k, j) :: rest =>
    match Organization.fromJson j with
    | .error e => .error e
    | .ok o =>
      match parseOrgs rest with
      | .error e => .error e
      | .ok tl => .ok ((k, o) :: tl)

def Config.fromJson : Json → Except CfgError Config
  | .obj fs =>
    match jField fs "organizations" with
    | some (.obj ofs) =>
      match parseOrgs ofs with
      | .error e => .error e
      | .ok os => .ok { organizations := os }
    | _ => .error .parseError
  | _ => .error .parseError

/-! ## The config file and `Config::load` / `Config::save`
(src/config.rs lines 89-115) -/

/-- The state of the backing `config.json` file: absent, present but
not valid JSON, or present with a JSON document. -/
inductive FsFile where
  | absent
  | invalid
  | jsonFile (j : Json)

/-- Embeds `Config::load`: a missing file yields the default (empty)
config; unparsable content or a shape mismatch is a parse error. -/
def Config.load : FsFile → Except CfgError Config
  | .absent => .ok { organizations := [] }
  | .invalid => .error .parseError
  | .jsonFile j => Config.fromJson j

/-- Embeds `Config::save`: serializes the whole document and
overwrites the file (directory creation and IO failures are not
modelled). -/
def Config.save (c : Config) : FsFile := .jsonFile c.toJson

/-! ## Operations (src/config.rs lines 117-135, 183-266) -/

/-- Embeds `Config::add_organization` (lines 117-127): inserts an
`Organization` with `keyring: None` and an empty project map. -/
def Config.add_organization (c : Config) (name slug : String) : Config :=
  { organizations :=
      aset c.organizations name
        { name := name, slug := slug, keyring := none, projects := [] } }

/-- Embeds `Config::get_organization`. -/
def Config.get_organization (c : Config) (name : String) : Option Organization :=
  alookup c.organizations name

/-- Embeds `Organization::new` (lines 212-220): reconstructs the
secret-store entry reference from the local name. -/
def Organization.new (name slug : String) : Organization :=
  { name := name, slug := slug,
    keyring := some (APP_NAME ++ "-" ++ name, "auth-token"), projects := [] }

/-- Embeds `Organization::get_auth_token` (lines 222-224): any
`get_password` failure is collapsed into `None` by `.ok()`, and a
missing handle short-circuits via `and_then`; the result is always
`Ok`. -/
def Organization.get_auth_token (o : Organization) (st : SecretStore) :
    Outcome (Option String) :=
  .ok (o.keyring.bind (fun id =>
    match getPassword st id with
    | .ok v => some v
    | .noEntry => none
    | .platformErr => none))

/-- Embeds `Organization::set_auth_token` (lines 226-231): a missing
handle makes the write a silent no-op. -/
def Organization.set_auth_token (o : Organization) (token : String) (st : SecretStore) :
    Outcome Unit × SecretStore :=
  match o.keyring with
  | none => (.ok (), st)
  | some id =>
    match setPassword st id token with
    | some st' => (.ok (), st')
    | none => (.err .keyringError, st)

/-- The mutable world outside the `Config` value: secret store, RNG
and the backing file. -/
structure World where
  store : SecretStore
  rng : Rng
  file : FsFile

/-- Embeds `Config::cache_project` (lines 183-208).  The plaintext
project name is its UTF-8 byte list.  A missing organization is a
silent no-op; otherwise the name is sealed under a fresh nonce, the
blob `nonce ‖ ciphertext` stored, and the whole config saved. -/
def Config.cache_project (c : Config) (org_name project_slug : String)
    (project_name : List Nat) (w : World) : Outcome Unit × Config × World :=
  match alookup c.organizations org_name with
  | none => (.ok (), c, w)
  | some org =>
    match getProjectKey w.store w.rng with
    | (.ok key, st', r') =>
      let (nonce, r'') := genNonce r'
      let encrypted_name := sbSeal project_name nonce key
      let combined := nonce ++ encrypted_name
      let org' := { org with projects :=
        (aset org.projects project_slug { name := combined, slug := project_slug }) }
      let c' : Config := { organizations := aset c.organizations org_name org' }
      (.ok (), c', { store := st', rng := r'', file := c'.save })
    | (.err e, st', r') => (.err e, c, { store := st', rng := r', file := w.file })
    | (.panicked, st', r') => (.panicked, c, { store := st', rng := r', file := w.file })

/-- Embeds `Organization::get_project` (lines 233-250): fetch the key,
reject blobs shorter than the nonce, split, rebuild the nonce
(`Nonce::from_slice`), authenticated open, then UTF-8 validation. -/
def Organization.get_project (o : Organization) (slug : String) (st : SecretStore) (r : Rng) :
    Option (Outcome (List Nat)) × SecretStore × Rng :=
  match alookup o.projects slug with
  | none => (none, st, r)
  | some project =>
    match getProjectKey st r with
    | (.ok key, st', r') =>
      let combined := project.name
      if combined.length < NONCEBYTES then (some (.err .malformed), st', r')
      else
        let nonce_bytes := combined.take NONCEBYTES
        let encrypted := combined.drop NONCEBYTES
        if nonce_bytes.length = NONCEBYTES then
          match sbOpen encrypted nonce_bytes key with
          | none => (some (.err .authFailed), st', r')
          | some decrypted =>
            if validUtf8 decrypted then (some (.ok decrypted), st', r')
            else (some (.err .invalidEncoding), st', r')
        else (some (.err .invalidNonce), st', r')
    | (.err e, st', r') => (some (.err e), st', r')
    | (.panicked, st', r') => (some .panicked, st', r')

/-- Embeds `Organization::has_project` (lines 252-254). -/
def Organization.has_project (o : Organization) (slug : String) : Bool :=
  (alookup o.projects slug).isSome

/-! ## Behaviour of `get_project_key` under a well-behaved store -/

/-- A secret-store state on which the device-key protocol works: both
operations succeed and any stored value decodes to exactly 32 bytes. -/
def deviceKeyOk (st : SecretStore) : Prop :=
  st.getFails = false ∧ st.setFails = false ∧
    ∀ v, alookup st.entries deviceKeyEntry = some v →
      ∃ bs, b64Decode v = some bs ∧ bs.length = 32

/-- Field access on a JSON object. -/
def Json.getField : Json → String → Option Json
  | .obj fs, k => jField fs k
  | .str _, _ => none

/-- Reset the non-serialized secret-store handle, as deserialization
does (`#[serde(skip)]`). -/
def Organization.dropHandle (o : Organization) : Organization :=
  { o with keyring := none }

def Config.dropHandles (c : Config) : Config :=
  { organizations := c.organizations.map (fun kv => (kv.1, kv.2.dropHandle)) }

/-! Concrete fixtures used to instantiate the general theorems. -/

def exProject : EncryptedProject := { name := [1, 255, 0], slug := "p" }

def exOrg : Organization :=
  { name := "a", slug := "x", keyring := none, projects := [("p", exProject)] }

def exConfig : Config := { organizations := [("a", exOrg)] }

def exAcme : Organization :=
  { name := "acme", slug := "acme-org", keyring := none, projects := [] }

def exAcmeConfig : Config := { organizations := [("acme", exAcme)] }

def exWorld : World := { store := ⟨[], false, false⟩, rng := ⟨0⟩, file := .absent }

/-! ## Lemmas and claim theorems -/

theorem alookup_aset_self {κ α : Type} [DecidableEq κ]
    (es : List (κ × α)) (k : κ) (v : α) : alookup (aset es k v) k = some v := by
  induction es with
  | nil => simp [aset, alookup]
  | cons hd tl ih =>
    obtain ⟨k', v'⟩ := hd
    by_cases h : k' = k
    · simp [aset, h, alookup]
    · simp [aset, h, alookup, ih]

/-! ## Base64 lemmas -/

theorem b64IndexOf_b64CharOf : ∀ n, n < 64 → b64IndexOf (b64CharOf n) = some n := by
  decide

theorem b64CharOf_ne_pad : ∀ n, n < 64 → b64CharOf n ≠ '=' := by
  decide

/-- Encoding a byte list and decoding the result gives the bytes back. -/
theorem b64_roundtrip : ∀ bs : List Nat, (∀ b ∈ bs, b < 256) →
    b64DecodeChunks (b64EncodeChunks bs) = some bs := by
  intro bs
  induction bs using b64EncodeChunks.induct with
  | case1 =>
    intro _
    simp [b64EncodeChunks, b64DecodeChunks]
  | case2 a =>
    intro hb
    have ha : a < 256 := hb a (by simp)
    have h1 : a / 4 < 64 := by omega
    have h2 : a % 4 * 16 < 64 := by omega
    simp only [b64EncodeChunks, b64DecodeChunks,
      b64IndexOf_b64CharOf _ h1, b64IndexOf_b64CharOf _ h2]
    have hz : a % 4 * 16 % 16 = 0 := by omega
    simp [hz] <;> omega
  | case3 a b =>
    intro hb
    have ha : a < 256 := hb a (by simp)
    have hbb : b < 256 := hb b (by simp)
    have h1 : a / 4 < 64 := by omega
    have h2 : a % 4 * 16 + b / 16 < 64 := by omega
    have h3 : b % 16 * 4 < 64 := by omega
    have hne : b64CharOf (b % 16 * 4) ≠ '=' := b64CharOf_ne_pad _ h3
    simp only [b64EncodeChunks, b64DecodeChunks,
      b64IndexOf_b64CharOf _ h1, b64IndexOf_b64CharOf _ h2, b64IndexOf_b64CharOf _ h3]
    have hz : b % 16 * 4 % 4 = 0 := by omega
    simp [hne, hz] <;> omega
  | case4 a b c rest ih =>
    intro hb
    have ha : a < 256 := hb a (by simp)
    have hbb : b < 256 := hb b (by simp)
    have hc : c < 256 := hb c (by simp)
    have hrest : ∀ x ∈ rest, x < 256 := fun x hx => hb x (by simp [hx])
    have h1 : a / 4 < 64 := by omega
    have h2 : a % 4 * 16 + b / 16 < 64 := by omega
    have h3 : b % 16 * 4 + c / 64 < 64 := by omega
    have h4 : c % 64 < 64 := by omega
    have hne3 : b64CharOf (b % 16 * 4 + c / 64) ≠ '=' := b64CharOf_ne_pad _ h3
    have hne4 : b64CharOf (c % 64) ≠ '=' := b64CharOf_ne_pad _ h4
    simp only [b64EncodeChunks, b64DecodeChunks,
      b64IndexOf_b64CharOf _ h1, b64IndexOf_b64CharOf _ h2,
      b64IndexOf_b64CharOf _ h3, b64IndexOf_b64CharOf _ h4]
    simp [hne3, hne4, ih hrest] <;> omega

/-! ## Secretbox-model lemmas -/

theorem xorStream_length (n k : List Nat) : ∀ i bs, (xorStream n k i bs).length = bs.length := by
  intro i bs
  induction bs generalizing i with
  | nil => simp [xorStream]
  | cons b bs ih => simp [xorStream, ih]

theorem xorStream_xorStream (n k : List Nat) :
    ∀ i bs, xorStream n k i (xorStream n k i bs) = bs := by
  intro i bs
  induction bs generalizing i with
  | nil => simp [xorStream]
  | cons b bs ih =>
    simp [xorStream, ih, Nat.xor_assoc]

theorem macTag_length (n k ct : List Nat) : (macTag n k ct).length = MACBYTES := by
  simp [macTag]

/-- The functional round trip of the secretbox model. -/
theorem sbOpen_seal (m n k : List Nat) : sbOpen (sbSeal m n k) n k = some m := by
  have hlen : (macTag n k (xorStream n k 0 m)).length = MACBYTES := macTag_length n k _
  simp only [sbOpen, sbSeal]
  rw [if_neg (by rw [List.length_append, hlen]; omega)]
  rw [List.take_left' hlen, List.drop_left' hlen, if_pos rfl, xorStream_xorStream]

/-! ## Key-provider lemmas -/

theorem rngByte_lt (seed i : Nat) : rngByte seed i < 256 :=
  Nat.mod_lt _ (by norm_num)

theorem b64Decode_b64Encode (bs : List Nat) (h : ∀ b ∈ bs, b < 256) :
    b64Decode (b64Encode bs) = some bs := b64_roundtrip bs h

theorem fillBytes_lt (r : Rng) (cnt : Nat) : ∀ b ∈ (fillBytes r cnt).1, b < 256 := by
  intro b hb
  simp only [fillBytes, List.mem_map] at hb
  obtain ⟨i, _, rfl⟩ := hb
  exact rngByte_lt _ _

/-- On a well-behaved store, `get_project_key` returns a 32-byte key
and leaves (or puts) a value decoding to that key in the device entry. -/
theorem getProjectKey_ok (st : SecretStore) (r : Rng) (h : deviceKeyOk st) :
    ∃ key st' r', getProjectKey st r = (.ok key, st', r') ∧
      key.length = 32 ∧ st'.getFails = false ∧ st'.setFails = false ∧
      ∃ v, alookup st'.entries deviceKeyEntry = some v ∧ b64Decode v = some key := by
  obtain ⟨hg, hs, hst⟩ := h
  cases hl : alookup st.entries deviceKeyEntry with
  | some v =>
    obtain ⟨bs, hdec, hlen⟩ := hst v hl
    refine ⟨bs, st, r, ?_, hlen, hg, hs, v, hl, hdec⟩
    simp [getProjectKey, getPassword, hg, hl, hdec, hlen, PROJECT_KEY_LENGTH]
  | none =>
    refine ⟨(fillBytes r PROJECT_KEY_LENGTH).1,
      { st with entries :=
          (aset st.entries deviceKeyEntry (b64Encode (fillBytes r PROJECT_KEY_LENGTH).1)) },
      (fillBytes r PROJECT_KEY_LENGTH).2, ?_, ?_, hg, hs, ?_⟩
    · simp [getProjectKey, getPassword, setPassword, hg, hs, hl]
    · simp [fillBytes, PROJECT_KEY_LENGTH]
    · exact ⟨b64Encode (fillBytes r PROJECT_KEY_LENGTH).1,
        alookup_aset_self _ _ _,
        b64Decode_b64Encode _ (fillBytes_lt r PROJECT_KEY_LENGTH)⟩

/-- A second read of a stored, well-formed key returns the same key
without touching any state. -/
theorem getProjectKey_stable (st : SecretStore) (r : Rng) (key : List Nat)
    (hget : st.getFails = false)
    (hv : ∃ v, alookup st.entries deviceKeyEntry = some v ∧ b64Decode v = some key)
    (hlen : key.length = 32) :
    getProjectKey st r = (.ok key, st, r) := by
  obtain ⟨v, hl, hdec⟩ := hv
  simp [getProjectKey, getPassword, hget, hl, hdec, hlen, PROJECT_KEY_LENGTH]

/-! ## JSON field lookup on the serialized shapes -/

theorem jField2_name (a b : Json) :
    jField [("name", a), ("slug", b)] "name" = some a := rfl

theorem jField2_slug (a b : Json) :
    jField [("name", a), ("slug", b)] "slug" = some b := rfl

theorem jField3_name (a b c : Json) :
    jField [("name", a), ("slug", b), ("projects", c)] "name" = some a := rfl

theorem jField3_slug (a b c : Json) :
    jField [("name", a), ("slug", b), ("projects", c)] "slug" = some b := rfl

theorem jField3_projects (a b c : Json) :
    jField [("name", a), ("slug", b), ("projects", c)] "projects" = some c := rfl

theorem jField1_orgs (a : Json) :
    jField [("organizations", a)] "organizations" = some a := rfl

/-! ## Serialization round trips -/

theorem encryptedProject_roundtrip (p : EncryptedProject)
    (hb : ∀ b ∈ p.name, b < 256) :
    EncryptedProject.fromJson p.toJson = .ok p := by
  simp only [EncryptedProject.toJson, EncryptedProject.fromJson, jField2_name, jField2_slug,
    b64Decode_b64Encode p.name hb]

theorem parseProjects_roundtrip : ∀ ps : List (String × EncryptedProject),
    (∀ kv ∈ ps, ∀ b ∈ kv.2.name, b < 256) →
    parseProjects (ps.map (fun kv => (kv.1, kv.2.toJson))) = .ok ps := by
  intro ps
  induction ps with
  | nil => intro _; rfl
  | cons hd tl ih =>
    intro hb
    have h1 : ∀ b ∈ hd.2.name, b < 256 := hb hd (by simp)
    have h2 : ∀ kv ∈ tl, ∀ b ∈ kv.2.name, b < 256 := fun kv hkv => hb kv (by simp [hkv])
    simp only [List.map_cons, parseProjects, encryptedProject_roundtrip hd.2 h1, ih h2]

theorem organization_roundtrip (o : Organization)
    (hb : ∀ kv ∈ o.projects, ∀ b ∈ kv.2.name, b < 256) :
    Organization.fromJson o.toJson = .ok o.dropHandle := by
  simp only [Organization.toJson, Organization.fromJson, jField3_name, jField3_slug,
    jField3_projects, parseProjects_roundtrip o.projects hb, Organization.dropHandle]

theorem parseOrgs_roundtrip : ∀ os : List (String × Organization),
    (∀ kv ∈ os, ∀ pv ∈ kv.2.projects, ∀ b ∈ pv.2.name, b < 256) →
    parseOrgs (os.map (fun kv => (kv.1, kv.2.toJson))) =
      .ok (os.map (fun kv => (kv.1, kv.2.dropHandle))) := by
  intro os
  induction os with
  | nil => intro _; rfl
  | cons hd tl ih =>
    intro hb
    have h1 : ∀ pv ∈ hd.2.projects, ∀ b ∈ pv.2.name, b < 256 := hb hd (by simp)
    have h2 : ∀ kv ∈ tl, ∀ pv ∈ kv.2.projects, ∀ b ∈ pv.2.name, b < 256 :=
      fun kv hkv => hb kv (by simp [hkv])
    simp only [List.map_cons, parseOrgs, organization_roundtrip hd.2 h1, ih h2]

/-! ## Claim theorems -/

theorem deviceKeyOk_empty : deviceKeyOk ⟨[], false, false⟩ :=
  ⟨rfl, rfl, fun _ h => nomatch h⟩

/-- Claim C8: `load()` when the backing config file does not exist
returns a fresh empty Config (zero organizations) successfully, not an
error. -/
theorem C8_load_missing_file :
    Config.load .absent = .ok { organizations := [] } := rfl

/-- Claim C9: `cache_project` on an organization name absent from the
Config is a silent no-op: it returns success and leaves the config and
the whole outside world (secret store, RNG, file — hence no encryption
and no save) unchanged. -/
theorem C9_cache_project_noop (c : Config) (org_name slug : String)
    (nm : List Nat) (w : World)
    (h : alookup c.organizations org_name = none) :
    Config.cache_project c org_name slug nm w = (.ok (), c, w) := by
  simp [Config.cache_project, h]

/-- Witness for C9 at a concrete empty config and world. -/
theorem C9_witness :
    alookup (Config.mk []).organizations "acme" = none ∧
      Config.cache_project ⟨[]⟩ "acme" "web" [87] ⟨⟨[], false, false⟩, ⟨0⟩, .absent⟩ =
        (.ok (), ⟨[]⟩, ⟨⟨[], false, false⟩, ⟨0⟩, .absent⟩) :=
  ⟨rfl, C9_cache_project_noop _ _ _ _ _ rfl⟩

/-- Claim C10: `get_auth_token` is total and infallible: it always
returns Ok; a missing secret-store handle, an absent entry and any
keyring failure all collapse into Ok(None). -/
theorem C10_get_auth_token_total (o : Organization) (st : SecretStore) :
    (∃ v, o.get_auth_token st = .ok v) ∧
    (o.keyring = none → o.get_auth_token st = .ok none) ∧
    (st.getFails = true → o.get_auth_token st = .ok none) ∧
    (∀ id, o.keyring = some id → alookup st.entries id = none →
      o.get_auth_token st = .ok none) := by
  refine ⟨⟨_, rfl⟩, ?_, ?_, ?_⟩
  · intro h
    simp [Organization.get_auth_token, h]
  · intro h
    cases hk : o.keyring with
    | none => simp [Organization.get_auth_token, hk]
    | some id => simp [Organization.get_auth_token, hk, getPassword, h]
  · intro id hk hl
    cases hgf : st.getFails <;>
      simp [Organization.get_auth_token, hk, getPassword, hgf, hl]

/-- Witness for C10: a handle-less organization yields Ok(None). -/
theorem C10_witness :
    Organization.get_auth_token
      { name := "a", slug := "b", keyring := none, projects := [] }
      ⟨[], false, false⟩ = .ok none :=
  (C10_get_auth_token_total _ _).2.1 rfl

/-- Claim C1 (code bug): `add_organization` wires no secret-store
handle (`keyring: None`), so on such an organization `set_auth_token`
is a silent no-op and `get_auth_token` returns Ok(None) — never
Some(token) as the spec and the crate's own test expect. -/
theorem C1_token_not_stored :
    ∀ st : SecretStore, ∀ token : String,
      Config.get_organization (Config.add_organization ⟨[]⟩ "acme" "acme-org") "acme" =
        some { name := "acme", slug := "acme-org", keyring := none, projects := [] } ∧
      Organization.set_auth_token
        { name := "acme", slug := "acme-org", keyring := none, projects := [] } token st =
        (.ok (), st) ∧
      Organization.get_auth_token
        { name := "acme", slug := "acme-org", keyring := none, projects := [] } st =
        .ok none := by
  intro st token
  exact ⟨rfl, rfl, rfl⟩

/-- Claim C2 (code bug): a stored device-key entry that decodes to 3
bytes makes `get_project_key` panic in `copy_from_slice` instead of
failing with a CryptoError. -/
theorem C2_wrong_length_key_panics :
    ∀ r : Rng,
      b64Decode "AAAA" = some [0, 0, 0] ∧
      (getProjectKey ⟨[(deviceKeyEntry, "AAAA")], false, false⟩ r).1 = .panicked := by
  intro r
  exact ⟨rfl, rfl⟩

/-- Claim C3 (code bug): with a valid 32-byte key stored but
`get_password` failing with a platform error (and `set_password`
working), the `Err(_)` arm treats the failure as "no key": it returns
Ok with a fresh key and overwrites the stored entry instead of failing
with a KeyringError. -/
theorem C3_platform_error_overwrites_key :
    (getProjectKey
        ⟨[(deviceKeyEntry, b64Encode (List.replicate 32 0))], true, false⟩ ⟨0⟩).1 =
      .ok ((List.range 32).map (rngByte 0)) ∧
    (getProjectKey
        ⟨[(deviceKeyEntry, b64Encode (List.replicate 32 0))], true, false⟩ ⟨0⟩).2.1.entries =
      [(deviceKeyEntry, b64Encode ((List.range 32).map (rngByte 0)))] ∧
    (List.range 32).map (rngByte 0) ≠ List.replicate 32 0 := by
  refine ⟨rfl, rfl, ?_⟩
  decide

/-- Claim C5 counterexample: with the secret store failing, a stored
blob shorter than the nonce length makes `get_project` return the
propagated keyring error, not a Malformed CryptoError — the claim as
stated does not hold for every blob. -/
theorem C5_counterexample :
    ([] : List Nat).length < NONCEBYTES ∧
    (Organization.get_project
        { name := "a", slug := "a", keyring := none,
          projects := [("p", { name := [], slug := "p" })] }
        "p" ⟨[], true, true⟩ ⟨0⟩).1 = some (.err .keyringError) ∧
    (Organization.get_project
        { name := "a", slug := "a", keyring := none,
          projects := [("p", { name := [], slug := "p" })] }
        "p" ⟨[], true, true⟩ ⟨0⟩).1 ≠ some (.err .malformed) := by
  refine ⟨by decide, rfl, by decide⟩

/-- Claim C5 (amended): when the device-key fetch succeeds, a stored
blob shorter than the nonce length makes `get_project` return Some of
a Malformed CryptoError — decryption is never attempted and nothing
panics. -/
theorem C5_short_blob_malformed (o : Organization) (slug : String)
    (p : EncryptedProject) (st : SecretStore) (r : Rng)
    (hp : alookup o.projects slug = some p)
    (hlen : p.name.length < NONCEBYTES)
    (hst : deviceKeyOk st) :
    ∃ st' r', Organization.get_project o slug st r = (some (.err .malformed), st', r') := by
  obtain ⟨key, st', r', hgpk, -, -, -, -⟩ := getProjectKey_ok st r hst
  refine ⟨st', r', ?_⟩
  simp [Organization.get_project, hp, hgpk, hlen]

/-- Witness for C5 at a one-byte blob and a working empty store. -/
theorem C5_witness :
    (alookup ([("p", ({ name := [0], slug := "p" } : EncryptedProject))]) "p" =
        some { name := [0], slug := "p" } ∧
      ([0] : List Nat).length < NONCEBYTES ∧
      deviceKeyOk ⟨[], false, false⟩) ∧
    ∃ st' r',
      Organization.get_project
        { name := "o", slug := "o", keyring := none,
          projects := [("p", { name := [0], slug := "p" })] }
        "p" ⟨[], false, false⟩ ⟨0⟩ = (some (.err .malformed), st', r') :=
  ⟨⟨rfl, by decide, deviceKeyOk_empty⟩,
    C5_short_blob_malformed _ _ _ _ _ rfl (by decide) deviceKeyOk_empty⟩

/-- Claim C6 counterexample: an organization carrying a secret-store
handle (as built by `Organization::new`) does not survive save/load
structurally: the handle deserializes to None, so `load(save(c)) ≠ c`
for such a config. -/
theorem C6_counterexample :
    Config.load (Config.save ⟨[("a", Organization.new "a" "x")]⟩) =
      .ok ⟨[("a", { name := "a", slug := "x", keyring := none, projects := [] })]⟩ ∧
    (⟨[("a", { name := "a", slug := "x", keyring := none, projects := [] })]⟩ : Config) ≠
      ⟨[("a", Organization.new "a" "x")]⟩ := by
  exact ⟨rfl, by decide⟩

/-- Claim C6 (amended): `load(save(c))` succeeds and returns `c` with
every organization's non-serialized secret-store handle reset to None;
every serialized field, including each encrypted project blob
byte-for-byte, is preserved (no re-encryption on reload). -/
theorem C6_save_load_roundtrip (c : Config)
    (hb : ∀ kv ∈ c.organizations, ∀ pv ∈ kv.2.projects, ∀ b ∈ pv.2.name, b < 256) :
    Config.load (Config.save c) = .ok (Config.dropHandles c) := by
  simp only [Config.save, Config.load, Config.toJson, Config.fromJson, jField1_orgs,
    parseOrgs_roundtrip c.organizations hb, Config.dropHandles]

/-- Witness for C6 at a config with one organization and one encrypted
blob. -/
theorem C6_witness :
    (∀ kv ∈ exConfig.organizations, ∀ pv ∈ kv.2.projects, ∀ b ∈ pv.2.name, b < 256) ∧
    Config.load (Config.save exConfig) = .ok (Config.dropHandles exConfig) :=
  ⟨by decide, C6_save_load_roundtrip _ (by decide)⟩

/-- Claim C7: the serialized JSON document contains no auth token and
no secret-store handle field — organization objects expose exactly
name, slug and projects, and serialization does not depend on the
handle — and every projects.*.name field is the base64 text of the
encrypted blob, never raw plaintext. -/
theorem C7_no_secrets_serialized (c : Config) :
    Json.objKeys (Config.toJson c) = ["organizations"] ∧
    ∀ kv ∈ c.organizations,
      Json.objKeys (Organization.toJson kv.2) = ["name", "slug", "projects"] ∧
      (∀ h, Organization.toJson { kv.2 with keyring := h } = Organization.toJson kv.2) ∧
      ∀ pv ∈ kv.2.projects,
        Json.objKeys (EncryptedProject.toJson pv.2) = ["name", "slug"] ∧
        (EncryptedProject.toJson pv.2).getField "name" =
          some (.str (b64Encode pv.2.name)) := by
  refine ⟨rfl, ?_⟩
  intro kv _
  refine ⟨rfl, fun _ => rfl, ?_⟩
  intro pv _
  exact ⟨rfl, rfl⟩

/-- Witness for C7 at the concrete fixture organization and project. -/
theorem C7_witness :
    Json.objKeys (Organization.toJson exOrg) = ["name", "slug", "projects"] ∧
    (EncryptedProject.toJson exProject).getField "name" =
      some (.str (b64Encode exProject.name)) := by
  have h := (C7_no_secrets_serialized exConfig).2 ("a", exOrg) (by simp [exConfig])
  exact ⟨h.1, (h.2.2 ("p", exProject) (by simp [exOrg])).2⟩

/-- Claim C4: storage round trip: for any valid-UTF-8 plaintext, after
`cache_project` on an existing organization with a functional secret
store, `get_project` on the updated organization decrypts the blob
back to the same plaintext. -/
theorem C4_cache_get_roundtrip (c : Config) (org : Organization) (w : World)
    (org_name slug : String) (nm : List Nat)
    (horg : alookup c.organizations org_name = some org)
    (hst : deviceKeyOk w.store)
    (hutf : validUtf8 nm = true) :
    ∃ c' w', Config.cache_project c org_name slug nm w = (.ok (), c', w') ∧
      ∃ org', alookup c'.organizations org_name = some org' ∧
        (Organization.get_project org' slug w'.store w'.rng).1 = some (.ok nm) := by
  obtain ⟨key, st', r', hgpk, hklen, hgf, hsf, v, hlv, hdec⟩ :=
    getProjectKey_ok w.store w.rng hst
  simp only [Config.cache_project, horg, hgpk, genNonce, fillBytes]
  refine ⟨_, _, rfl, _, alookup_aset_self _ _ _, ?_⟩
  have hstable : getProjectKey st' ⟨r'.seed + 1⟩ = (.ok key, st', ⟨r'.seed + 1⟩) :=
    getProjectKey_stable _ _ _ hgf ⟨v, hlv, hdec⟩ hklen
  have hnl : ((List.range NONCEBYTES).map (rngByte r'.seed)).length = NONCEBYTES := by
    simp
  have hno : ¬ ((List.range NONCEBYTES).map (rngByte r'.seed) ++
      sbSeal nm ((List.range NONCEBYTES).map (rngByte r'.seed)) key).length < NONCEBYTES := by
    rw [List.length_append, hnl]
    omega
  simp [Organization.get_project, alookup_aset_self, hstable, hno,
    List.take_left' hnl, List.drop_left' hnl, hnl, sbOpen_seal, hutf]

/-- Witness for C4 at the concrete fixture organization and the
one-byte plaintext "A". -/
theorem C4_witness :
    (alookup exAcmeConfig.organizations "acme" = some exAcme ∧
      deviceKeyOk exWorld.store ∧ validUtf8 [65] = true) ∧
    ∃ c' w', Config.cache_project exAcmeConfig "acme" "web" [65] exWorld = (.ok (), c', w') ∧
      ∃ org', alookup c'.organizations "acme" = some org' ∧
        (Organization.get_project org' "web" w'.store w'.rng).1 = some (.ok [65]) :=
  ⟨⟨rfl, deviceKeyOk_empty, by decide⟩,
    C4_cache_get_roundtrip _ _ _ _ _ _ rfl deviceKeyOk_empty (by decide)⟩

end SexCli

